import Mathlib

/-!
Verification of the resumable, retrying download engine of
`snapshot-downloader2` against its specification.

The development is a shallow embedding of the relevant Rust code:

* `src/config.rs` — `DownloadRetryConfig`, `calculate_delay`, and the
  retry-configuration normalization performed by `Config::from_file`;
* `src/download.rs` — `download_file` / `download_s3_file` (the retry
  loops), `download_file_attempt` / `download_s3_file_attempt` (one
  attempt each for HTTP and S3), `download_async_read_to_file` (the
  shared streaming writer), `parse_s3_url`, `concatenate_files` and
  `cleanup_part_files` (multipart assembly).

Modelling conventions:

* Machine integers (`u32`, `u64`) are modelled as `ℕ`; the one `f64`
  value (`backoff_multiplier`) is modelled as an exact rational `ℚ`,
  and the Rust `as u64` cast of a non-negative float is modelled as
  `Int.toNat ∘ Int.floor` (both truncate toward zero and send negative
  values to 0).
* The network is modelled as an environment value per attempt: the
  probe response, then the body response with its stream of chunk
  reads; each chunk read may fail, mirroring a mid-stream I/O error.
  Parsed header values (`content-range` total, `content-length`) are
  modelled as `Option ℕ` — `none` means absent/unparsable, matching
  the `unwrap_or(0)` fallbacks in the source.
* The local filesystem seen by one download is the optional content of
  the destination file, `Option (List ℕ)` (a list of bytes; `none`
  means the file does not exist).  For the multipart assembler, which
  touches several files, a small association-list filesystem is used.
* Logging and the progress bar are side-effect-free in the model; the
  `sleep` between attempts is recorded as the list of slept delays.
-/

set_option maxRecDepth 10000

namespace SnapshotDownloader

instance {ε α : Type} [DecidableEq ε] [DecidableEq α] : DecidableEq (Except ε α)
  | Except.ok a, Except.ok b =>
    if h : a = b then Decidable.isTrue (by rw [h])
    else Decidable.isFalse (by simp [h])
  | Except.ok _, Except.error _ => Decidable.isFalse (fun hc => Except.noConfusion hc)
  | Except.error _, Except.ok _ => Decidable.isFalse (fun hc => Except.noConfusion hc)
  | Except.error e, Except.error e2 =>
    if h : e = e2 then Decidable.isTrue (by rw [h])
    else Decidable.isFalse (by simp [h])

/-- `DownloadRetryConfig` from `src/config.rs` (lines 8–22).  Durations
are in whole seconds as in the source (`initial_delay_secs`,
`max_delay_secs`); the `f64` multiplier is modelled as `ℚ`. -/
structure DownloadRetryConfig where
  max_retries : ℕ
  initial_delay_secs : ℕ
  max_delay_secs : ℕ
  backoff_multiplier : ℚ
deriving DecidableEq

/-- The `Default` impl for `DownloadRetryConfig` (`src/config.rs` lines
24–46): `max_retries = 5`, `initial_delay_secs = 1`,
`max_delay_secs = 300`, `backoff_multiplier = 2.0`. -/
def DownloadRetryConfig.default : DownloadRetryConfig :=
  { max_retries := 5
    initial_delay_secs := 1
    max_delay_secs := 300
    backoff_multiplier := 2 }

/-- `DownloadRetryConfig::calculate_delay` (`src/config.rs` lines
48–55): `(initial_delay_secs as f64 * backoff_multiplier.powi(attempt))
as u64`, then `.min(max_delay_secs)`.  The float product is exact in
`ℚ`; the `as u64` cast is `Int.toNat ∘ Int.floor`. -/
def DownloadRetryConfig.calculate_delay (c : DownloadRetryConfig) (attempt : ℕ) : ℕ :=
  let delay_secs : ℕ :=
    Int.toNat ⌊(c.initial_delay_secs : ℚ) * c.backoff_multiplier ^ attempt⌋
  min delay_secs c.max_delay_secs

/-- The retry-configuration normalization inside `Config::from_file`
(`src/config.rs` lines 134–137): if the parsed `download_retry` has
`max_retries == 0` the whole record is replaced by the default. -/
def normalize_download_retry (c : DownloadRetryConfig) : DownloadRetryConfig :=
  if c.max_retries = 0 then DownloadRetryConfig.default else c

/-- The retry loop shared (verbatim up to the error messages) by
`download_file` (`src/download.rs` lines 21–43) and `download_s3_file`
(lines 456–478): `for attempt in 0..=max_retries`, one `step` per
attempt threading the on-disk state `σ`; on `Ok` return immediately,
on `Err` at the final attempt return the error, otherwise sleep
`calculate_delay attempt` and continue.  The result records the final
`Except`, the final state, the number of attempts performed, and the
list of slept delays in order.  `fuel` is `max_retries - attempt`, so
`fuel = 0` exactly when `attempt == max_retries`. -/
def retry_go {σ ε α : Type} (cfg : DownloadRetryConfig)
    (step : ℕ → σ → Except ε α × σ) :
    ℕ → ℕ → σ → Except ε α × σ × ℕ × List ℕ
  | a, 0, s => ((step a s).1, (step a s).2, 1, [])
  | a, fuel + 1, s =>
    match step a s with
    | (Except.ok x, s1) => (Except.ok x, s1, 1, [])
    | (Except.error _, s1) =>
      let rest := retry_go cfg step (a + 1) fuel s1
      (rest.1, rest.2.1, rest.2.2.1 + 1, cfg.calculate_delay a :: rest.2.2.2)

/-- The whole retry loop, started at attempt 0 with fuel
`max_retries`. -/
def retry_loop {σ ε α : Type} (cfg : DownloadRetryConfig)
    (step : ℕ → σ → Except ε α × σ) (s₀ : σ) :
    Except ε α × σ × ℕ × List ℕ :=
  retry_go cfg step 0 cfg.max_retries s₀

/-- The on-disk state seen at the start of attempt `a + k` when the
loop entered attempt `a` in state `s`: each failed attempt hands its
final state to the next one. -/
def attemptStateFrom {σ ε α : Type} (step : ℕ → σ → Except ε α × σ)
    (a : ℕ) (s : σ) : ℕ → σ
  | 0 => s
  | k + 1 => (step (a + k) (attemptStateFrom step a s k)).2

lemma attemptStateFrom_succ {σ ε α : Type} (step : ℕ → σ → Except ε α × σ)
    (a : ℕ) (s : σ) :
    ∀ k, attemptStateFrom step a s (k + 1) =
      attemptStateFrom step (a + 1) ((step a s).2) k := by
  intro k
  induction k with
  | zero => simp [attemptStateFrom]
  | succ k ih =>
    show (step (a + (k + 1)) (attemptStateFrom step a s (k + 1))).2 = _
    rw [ih]
    show _ = (step (a + 1 + k) (attemptStateFrom step (a + 1) (step a s).2 k)).2
    have : a + (k + 1) = a + 1 + k := by omega
    rw [this]

lemma attemptStateFrom_const {σ ε α : Type} (step : ℕ → σ → Except ε α × σ)
    (h : ∀ k s, (step k s).2 = s) (a : ℕ) (s : σ) :
    ∀ k, attemptStateFrom step a s k = s := by
  intro k
  induction k with
  | zero => rfl
  | succ k ih =>
    show (step (a + k) (attemptStateFrom step a s k)).2 = s
    rw [ih, h]

/-- If every attempt fails, the loop runs all `fuel + 1` attempts from
attempt `a`, sleeps the configured delay after each of the first
`fuel` failures, and hands back the final attempt's result and
state. -/
lemma retry_go_all_fail {σ ε α : Type} (cfg : DownloadRetryConfig)
    (step : ℕ → σ → Except ε α × σ)
    (hf : ∀ k s, (step k s).1.isOk = false) :
    ∀ fuel a s, retry_go cfg step a fuel s =
      ((step (a + fuel) (attemptStateFrom step a s fuel)).1,
       (step (a + fuel) (attemptStateFrom step a s fuel)).2,
       fuel + 1,
       (List.range' a fuel).map cfg.calculate_delay) := by
  intro fuel
  induction fuel with
  | zero => intro a s; simp [retry_go, attemptStateFrom]
  | succ n ih =>
    intro a s
    have hstep := hf a s
    rcases hp : step a s with ⟨r, s1⟩
    cases r with
    | ok x => rw [hp] at hstep; simp [Except.isOk, Except.toBool] at hstep
    | error e =>
      show retry_go cfg step a (n + 1) s = _
      rw [show retry_go cfg step a (n + 1) s =
          (let rest := retry_go cfg step (a + 1) n s1
           (rest.1, rest.2.1, rest.2.2.1 + 1, cfg.calculate_delay a :: rest.2.2.2)) by
        simp only [retry_go, hp]]
      rw [ih (a + 1) s1]
      have hstate : attemptStateFrom step a s (n + 1) =
          attemptStateFrom step (a + 1) s1 n := by
        rw [attemptStateFrom_succ, hp]
      have hidx : a + 1 + n = a + (n + 1) := by omega
      simp only [hidx, hstate, List.range'_succ, List.map_cons]

/-- An `Except` that is not `Ok` is an `error` of something. -/
lemma isOk_false_iff {ε α : Type} (r : Except ε α) :
    r.isOk = false ↔ ∃ e, r = Except.error e := by
  cases r <;> simp [Except.isOk, Except.toBool]

/-- The errors produced by the download code (`anyhow` errors in the
source, distinguished here by their construction site). -/
inductive DownloadError where
  /-- "404 Not Found: The requested file does not exist" -/
  | notFound
  /-- "Failed to download {}: HTTP status {}" -/
  | httpStatus (status : ℕ)
  /-- "Failed to read from stream" / "Failed to write bytes to file" -/
  | streamError
  /-- "Invalid S3 URL format" (both messages of `parse_s3_url`) -/
  | invalidS3Url
  /-- "Failed to get S3 object metadata" -/
  | s3HeadError
  /-- "Failed to start S3 download (with range)" -/
  | s3GetError
deriving DecidableEq

/-- The server's answer to the 1-byte probe request
(`GET` with `Range: bytes=0-0`, `src/download.rs` lines 88–121).
Headers are modelled as already parsed: `content_range_total` is the
total parsed from a `content-range` header (`none` if the header is
absent or unparsable), `content_length` likewise for
`content-length`. -/
structure ProbeResponse where
  status : ℕ
  content_range_total : Option ℕ
  content_length : Option ℕ
deriving DecidableEq

/-- The server's answer to the actual download request: a status and
the body as a stream of chunk reads, each of which may fail with an
I/O error (`src/download.rs` lines 144–169 and 363–381). -/
structure HttpDownloadResponse where
  status : ℕ
  chunks : List (Except Unit (List ℕ))

/-- The remote world as seen by one HTTP attempt. -/
structure HttpAttemptEnv where
  probe : ProbeResponse
  download : HttpDownloadResponse

/-- `total_size` computation of `download_file_attempt`
(`src/download.rs` lines 102–121): on a 206 the total comes from the
`content-range` header, otherwise from `content-length`, defaulting to
0 (unknown) in both cases. -/
def total_size_of (p : ProbeResponse) : ℕ :=
  if p.status = 206 then p.content_range_total.getD 0 else p.content_length.getD 0

/-- Size of the local destination file; 0 when it does not exist
(`src/download.rs` lines 70–81 and `check_existing_file`, lines
391–405). -/
def file_size_of (file : Option (List ℕ)) : ℕ :=
  match file with
  | some c => c.length
  | none => 0

/-- Splitting a character list at every occurrence of `c`; models
Rust's `str::split(c)` (always yields at least one piece). -/
def splitOnChar (c : Char) : List Char → List (List Char)
  | [] => [[]]
  | x :: xs =>
    match splitOnChar c xs with
    | [] => [[x]]
    | h :: t => if x = c then [] :: h :: t else (x :: h) :: t

/-- `url.split('/').next_back()` (`src/download.rs` lines 56–59 and
503–506): the last `/`-separated component. -/
def fileName (url : String) : String :=
  String.mk ((splitOnChar '/' url.data).getLastD [])

/-- `download_dir.join(file_name)`. -/
def joinPath (dir name : String) : String :=
  dir ++ "/" ++ name

/-- `download_async_read_to_file` (`src/download.rs` lines 335–388),
the streaming writer shared by the HTTP and S3 paths.  The destination
is opened with `create(true).write(true).append(existing_size > 0)`,
so writing starts from the existing content when resuming and from an
empty file otherwise; `initial` is that starting content.  Chunks are
read in a loop: a zero-length read means EOF (flush and succeed), a
read error aborts with the bytes written so far still in the file.
Returns the stream result together with the final file content. -/
def download_async_read_to_file (chunks : List (Except Unit (List ℕ)))
    (initial : List ℕ) : Except Unit Unit × List ℕ :=
  match chunks with
  | [] => (Except.ok (), initial)
  | Except.error _ :: _ => (Except.error (), initial)
  | Except.ok c :: rest =>
    if c = [] then (Except.ok (), initial)
    else download_async_read_to_file rest (initial ++ c)

/-- A chunk read that succeeds with at least one byte. -/
def chunkGood (c : Except Unit (List ℕ)) : Prop :=
  match c with
  | Except.ok b => b ≠ []
  | Except.error _ => False

instance (c : Except Unit (List ℕ)) : Decidable (chunkGood c) :=
  match c with
  | Except.ok b => inferInstanceAs (Decidable (b ≠ []))
  | Except.error _ => inferInstanceAs (Decidable False)

/-- All chunk reads of a stream succeed and are nonempty. -/
def goodChunks (chunks : List (Except Unit (List ℕ))) : Prop :=
  ∀ c ∈ chunks, chunkGood c

instance (chunks : List (Except Unit (List ℕ))) : Decidable (goodChunks chunks) :=
  List.decidableBAll _ chunks

/-- The bytes delivered by a stream of successful chunk reads. -/
def chunksJoin (chunks : List (Except Unit (List ℕ))) : List ℕ :=
  (chunks.map (fun c => match c with
    | Except.ok b => b
    | Except.error _ => [])).flatten

/-- What one HTTP attempt did: `range_request = none` means the
download `GET` was never issued; `some r` means it was issued with
`Range: bytes={k}-` when `r = some k` and without a `Range` header
when `r = none`.  `file` is the destination file afterwards. -/
structure AttemptTrace where
  range_request : Option (Option ℕ)
  file : Option (List ℕ)
deriving DecidableEq

/-- `download_file_attempt` (`src/download.rs` lines 45–177), one HTTP
attempt: stat the local file, probe with `Range: bytes=0-0` (404 is a
hard error), derive `total_size`, return early when the file is
already complete, issue the download request with `Range:
bytes={file_size}-` exactly when `file_size > 0`, treat 416 as already
complete, fail on any other non-2xx status, and otherwise stream the
body to the file.  Returns the attempt result (`Ok` carries the
destination path, as in the source) and the trace. -/
def download_file_attempt (url download_dir : String)
    (env : HttpAttemptEnv) (file : Option (List ℕ)) :
    Except DownloadError String × AttemptTrace :=
  let file_path := joinPath download_dir (fileName url)
  let file_size := file_size_of file
  if env.probe.status = 404 then
    (Except.error DownloadError.notFound, ⟨none, file⟩)
  else
    let total_size := total_size_of env.probe
    if file_size = total_size ∧ 0 < total_size then
      (Except.ok file_path, ⟨none, file⟩)
    else
      let range : Option ℕ := if 0 < file_size then some file_size else none
      let resp := env.download
      if resp.status = 416 then
        (Except.ok file_path, ⟨some range, file⟩)
      else if ¬(200 ≤ resp.status ∧ resp.status < 300) then
        (Except.error (DownloadError.httpStatus resp.status), ⟨some range, file⟩)
      else
        let r := download_async_read_to_file resp.chunks (file.getD [])
        match r.1 with
        | Except.ok _ => (Except.ok file_path, ⟨some range, some r.2⟩)
        | Except.error _ => (Except.error DownloadError.streamError, ⟨some range, some r.2⟩)

/-- `download_file` (`src/download.rs` lines 15–43): the retry loop
around `download_file_attempt`, with the per-attempt server behaviour
given by `envs` and the destination file threaded through the
attempts. -/
def download_file (url download_dir : String) (cfg : DownloadRetryConfig)
    (envs : ℕ → HttpAttemptEnv) (file₀ : Option (List ℕ)) :
    Except DownloadError String × Option (List ℕ) × ℕ × List ℕ :=
  retry_loop cfg
    (fun a f =>
      let r := download_file_attempt url download_dir (envs a) f
      (r.1, r.2.file))
    file₀

lemma download_async_read_to_file_good (chunks : List (Except Unit (List ℕ)))
    (hg : goodChunks chunks) :
    ∀ initial, download_async_read_to_file chunks initial =
      (Except.ok (), initial ++ chunksJoin chunks) := by
  induction chunks with
  | nil => intro initial; simp [download_async_read_to_file, chunksJoin]
  | cons c rest ih =>
    intro initial
    have hc : chunkGood c := hg c (List.mem_cons_self c rest)
    have hrest : goodChunks rest := fun x hx => hg x (List.mem_cons_of_mem c hx)
    cases c with
    | error e => exact absurd hc (by simp [chunkGood])
    | ok b =>
      have hb : b ≠ [] := hc
      show download_async_read_to_file (Except.ok b :: rest) initial = _
      rw [show download_async_read_to_file (Except.ok b :: rest) initial =
          download_async_read_to_file rest (initial ++ b) by
        simp [download_async_read_to_file, hb]]
      rw [ih hrest]
      simp [chunksJoin]

lemma download_async_read_to_file_error (pre : List (List ℕ))
    (hpre : ∀ b ∈ pre, b ≠ []) :
    ∀ (initial : List ℕ) (rest : List (Except Unit (List ℕ))),
      download_async_read_to_file (pre.map Except.ok ++ Except.error () :: rest) initial =
        (Except.error (), initial ++ pre.flatten) := by
  induction pre with
  | nil => intro initial rest; simp [download_async_read_to_file]
  | cons b pre ih =>
    intro initial rest
    have hb : b ≠ [] := hpre b (List.mem_cons_self b pre)
    have hpre2 : ∀ x ∈ pre, x ≠ [] := fun x hx => hpre x (List.mem_cons_of_mem b hx)
    show download_async_read_to_file
      (Except.ok b :: (pre.map Except.ok ++ Except.error () :: rest)) initial = _
    rw [show download_async_read_to_file
        (Except.ok b :: (pre.map Except.ok ++ Except.error () :: rest)) initial =
        download_async_read_to_file (pre.map Except.ok ++ Except.error () :: rest)
          (initial ++ b) by
      simp [download_async_read_to_file, hb]]
    rw [ih hpre2]
    simp

/-- Splitting a character list at the first `'/'`; models Rust's
`splitn(2, '/')`, which yields two pieces when a `'/'` occurs (the
second piece possibly empty) and one piece — here `none` — when it
does not. -/
def splitn2Slash : List Char → Option (List Char × List Char)
  | [] => none
  | c :: cs =>
    if c = '/' then some ([], cs)
    else
      match splitn2Slash cs with
      | none => none
      | some (a, b) => some (c :: a, b)

/-- `parse_s3_url` (`src/download.rs` lines 409–425): the URL must
start with `s3://` and the remainder must contain a `'/'` separating
bucket from key; otherwise an `Invalid S3 URL format` error. -/
def parse_s3_url (url : String) : Except DownloadError (String × String) :=
  match url.data with
  | 's' :: '3' :: ':' :: '/' :: '/' :: rest =>
    match splitn2Slash rest with
    | none => Except.error DownloadError.invalidS3Url
    | some (bucket, key) => Except.ok (String.mk bucket, String.mk key)
  | _ => Except.error DownloadError.invalidS3Url

/-- The S3 service as seen by one attempt: the `head_object` result
(`content_length`, `none` when the response carries no length, matching
`unwrap_or(0)`), and the `get_object` result with its body chunks. -/
structure S3AttemptEnv where
  head : Except Unit (Option ℕ)
  get : Except Unit (List (Except Unit (List ℕ)))

/-- What one S3 attempt did: whether `head_object` was sent,
whether/how `get_object` was sent (`none`: never sent; `some none`:
plain get; `some (some k)`: ranged get `bytes={k}-`), and the
destination file afterwards. -/
structure S3Trace where
  head_requested : Bool
  get_request : Option (Option ℕ)
  file : Option (List ℕ)

/-- `download_s3_file_attempt` (`src/download.rs` lines 480–582): parse
the S3 URL (failure aborts the attempt before any network request),
stat the local file, `head_object` for the total size, return early
when already complete, then `get_object` — ranged exactly when
`existing_size > 0 && existing_size < total_size` — and stream the
body to the file exactly as the HTTP path does. -/
def download_s3_file_attempt (url download_dir : String)
    (env : S3AttemptEnv) (file : Option (List ℕ)) :
    Except DownloadError String × S3Trace :=
  match parse_s3_url url with
  | Except.error e => (Except.error e, ⟨false, none, file⟩)
  | Except.ok (_bucket, key) =>
    let file_path := joinPath download_dir (fileName key)
    let existing_size := file_size_of file
    match env.head with
    | Except.error _ => (Except.error DownloadError.s3HeadError, ⟨true, none, file⟩)
    | Except.ok content_length =>
      let total_size := content_length.getD 0
      if existing_size = total_size ∧ 0 < total_size then
        (Except.ok file_path, ⟨true, none, file⟩)
      else
        let range : Option ℕ :=
          if 0 < existing_size ∧ existing_size < total_size then some existing_size
          else none
        match env.get with
        | Except.error _ => (Except.error DownloadError.s3GetError, ⟨true, some range, file⟩)
        | Except.ok chunks =>
          let r := download_async_read_to_file chunks (file.getD [])
          match r.1 with
          | Except.ok _ => (Except.ok file_path, ⟨true, some range, some r.2⟩)
          | Except.error _ =>
            (Except.error DownloadError.streamError, ⟨true, some range, some r.2⟩)

/-- `download_s3_file` (`src/download.rs` lines 449–478): the same
retry loop around `download_s3_file_attempt`. -/
def download_s3_file (url download_dir : String) (cfg : DownloadRetryConfig)
    (envs : ℕ → S3AttemptEnv) (file₀ : Option (List ℕ)) :
    Except DownloadError String × Option (List ℕ) × ℕ × List ℕ :=
  retry_loop cfg
    (fun a f =>
      let r := download_s3_file_attempt url download_dir (envs a) f
      (r.1, r.2.file))
    file₀

/-- The local filesystem for the multipart assembler: an association
list from paths to byte contents (first entry wins). -/
abbrev FS := List (String × List ℕ)

def fsLookup : FS → String → Option (List ℕ)
  | [], _ => none
  | e :: rest, p => if e.1 = p then some e.2 else fsLookup rest p

/-- Deleting a file; removing an absent path is a no-op, matching the
ignored `remove_file` error. -/
def fsRemove : FS → String → FS
  | [], _ => []
  | e :: rest, p => if e.1 = p then fsRemove rest p else e :: fsRemove rest p

/-- Creating/overwriting a file with the given content. -/
def fsWrite (fs : FS) (p : String) (c : List ℕ) : FS :=
  (p, c) :: fsRemove fs p

/-- `cleanup_part_files` (`src/download.rs` lines 231–237): remove
every part file; a failed removal is only logged, so the function is
total and never fails. -/
def cleanup_part_files (fs : FS) (part_paths : List String) : FS :=
  part_paths.foldl (fun acc p => fsRemove acc p) fs

/-- The copy loop of `concatenate_files`: `acc` is the content already
copied into the open output file (kept equal to the output file's
content on disk); each input is read in order and appended, a missing
input aborts with an error. -/
def concatenate_files_go (output : String) :
    FS → List ℕ → List String → Except Unit FS
  | fs, _, [] => Except.ok fs
  | fs, acc, p :: rest =>
    match fsLookup fs p with
    | none => Except.error ()
    | some c => concatenate_files_go output (fsWrite fs output (acc ++ c)) (acc ++ c) rest

/-- `concatenate_files` (`src/download.rs` lines 240–267): the output
is opened with `create(true).write(true).truncate(true)` — so it
starts empty whatever was there before — and every input file is
appended to it in order by a plain streaming byte copy. -/
def concatenate_files (fs : FS) (input_paths : List String) (output_path : String) :
    Except Unit FS :=
  concatenate_files_go output_path (fsWrite fs output_path []) [] input_paths

lemma fsLookup_remove (fs : FS) (p q : String) :
    fsLookup (fsRemove fs p) q = if q = p then none else fsLookup fs q := by
  induction fs with
  | nil => simp [fsRemove, fsLookup]
  | cons e rest ih =>
    by_cases hep : e.1 = p
    · by_cases hqp : q = p
      · subst hqp
        simp [fsRemove, hep, ih]
      · have hpq : p ≠ q := fun h => hqp h.symm
        have heq : e.1 ≠ q := by rw [hep]; exact hpq
        simp [fsRemove, fsLookup, hep, heq, hqp, hpq, ih]
    · by_cases heq : e.1 = q
      · have hqp : q ≠ p := by rw [← heq]; exact hep
        simp [fsRemove, fsLookup, hep, heq, hqp]
      · simp [fsRemove, fsLookup, hep, heq, ih]

lemma fsLookup_write_self (fs : FS) (p : String) (c : List ℕ) :
    fsLookup (fsWrite fs p c) p = some c := by
  simp [fsWrite, fsLookup]

lemma fsLookup_write_ne (fs : FS) (p : String) (c : List ℕ) (q : String)
    (h : q ≠ p) :
    fsLookup (fsWrite fs p c) q = fsLookup fs q := by
  have hpq : p ≠ q := fun hh => h hh.symm
  simp [fsWrite, fsLookup, hpq, fsLookup_remove, h]

lemma fsLookup_cleanup (ps : List String) :
    ∀ (fs : FS) (q : String),
      fsLookup (cleanup_part_files fs ps) q =
        if q ∈ ps then none else fsLookup fs q := by
  induction ps with
  | nil => intro fs q; simp [cleanup_part_files]
  | cons p ps ih =>
    intro fs q
    show fsLookup (cleanup_part_files (fsRemove fs p) ps) q = _
    rw [ih, fsLookup_remove]
    by_cases h1 : q ∈ ps <;> by_cases h2 : q = p <;>
      simp [h1, h2, List.mem_cons]

lemma concatenate_files_go_ok (output : String) (content : String → List ℕ) :
    ∀ (ps : List String) (fs : FS) (acc : List ℕ),
      (∀ p ∈ ps, p ≠ output ∧ fsLookup fs p = some (content p)) →
      fsLookup fs output = some acc →
      ∃ fs2, concatenate_files_go output fs acc ps = Except.ok fs2 ∧
        fsLookup fs2 output = some (acc ++ (ps.map content).flatten) ∧
        ∀ q, q ≠ output → fsLookup fs2 q = fsLookup fs q := by
  intro ps
  induction ps with
  | nil =>
    intro fs acc hin hout
    exact ⟨fs, rfl, by simpa using hout, fun q hq => rfl⟩
  | cons p ps ih =>
    intro fs acc hin hout
    have hp := hin p (List.mem_cons_self p ps)
    rw [show concatenate_files_go output fs acc (p :: ps) =
        concatenate_files_go output (fsWrite fs output (acc ++ content p))
          (acc ++ content p) ps by
      simp [concatenate_files_go, hp.2]]
    have hin2 : ∀ q ∈ ps, q ≠ output ∧
        fsLookup (fsWrite fs output (acc ++ content p)) q = some (content q) := by
      intro q hq
      have hh := hin q (List.mem_cons_of_mem p hq)
      exact ⟨hh.1, (fsLookup_write_ne _ _ _ _ hh.1).trans hh.2⟩
    obtain ⟨fs2, h1, h2, h3⟩ := ih (fsWrite fs output (acc ++ content p))
      (acc ++ content p) hin2 (fsLookup_write_self _ _ _)
    refine ⟨fs2, h1, ?_, ?_⟩
    · rw [h2]
      simp
    · intro q hq
      rw [h3 q hq, fsLookup_write_ne _ _ _ _ hq]

end SnapshotDownloader

namespace SnapshotDownloader

/-- C2: for every retry policy and attempt number, the computed delay
is `min maxDelay ⌊initialDelay * multiplier ^ attempt⌋` (the product
floored to whole seconds before clamping), and for the policy
`initialDelay = 1s, multiplier = 2.0, maxDelay = 300s` the delays at
attempts 0, 3 and 9 are 1s, 8s and 300s (the last clamped from
512s). -/
theorem calculate_delay_spec :
    (∀ (c : DownloadRetryConfig) (a : ℕ),
      c.calculate_delay a =
        min c.max_delay_secs
          (Int.toNat ⌊(c.initial_delay_secs : ℚ) * c.backoff_multiplier ^ a⌋)) ∧
    DownloadRetryConfig.calculate_delay ⟨5, 1, 300, 2⟩ 0 = 1 ∧
    DownloadRetryConfig.calculate_delay ⟨5, 1, 300, 2⟩ 3 = 8 ∧
    DownloadRetryConfig.calculate_delay ⟨5, 1, 300, 2⟩ 9 = 300 := by
  refine ⟨fun c a => Nat.min_comm _ _, ?_, ?_, ?_⟩
  · norm_num [DownloadRetryConfig.calculate_delay]
  · norm_num [DownloadRetryConfig.calculate_delay]
    decide
  · norm_num [DownloadRetryConfig.calculate_delay]

/-- C3: with `maxRetries = n` and every attempt failing, the retry
loop performs exactly `n + 1` attempts, sleeps
`calculate_delay 0, …, calculate_delay (n-1)` between consecutive
attempts, and returns the last attempt's error. -/
theorem retry_exhaustion {σ ε α : Type} (cfg : DownloadRetryConfig)
    (step : ℕ → σ → Except ε α × σ) (s₀ : σ)
    (hf : ∀ k s, (step k s).1.isOk = false) :
    retry_loop cfg step s₀ =
      ((step cfg.max_retries (attemptStateFrom step 0 s₀ cfg.max_retries)).1,
       (step cfg.max_retries (attemptStateFrom step 0 s₀ cfg.max_retries)).2,
       cfg.max_retries + 1,
       (List.range cfg.max_retries).map cfg.calculate_delay) ∧
    ∃ e, (retry_loop cfg step s₀).1 = Except.error e := by
  have h := retry_go_all_fail cfg step hf cfg.max_retries 0 s₀
  rw [Nat.zero_add] at h
  rw [List.range_eq_range']
  refine ⟨h, ?_⟩
  rw [show (retry_loop cfg step s₀).1 =
      (step cfg.max_retries (attemptStateFrom step 0 s₀ cfg.max_retries)).1 by
    rw [retry_loop, h]]
  exact (isOk_false_iff _).1 (hf _ _)

/-- C3 witness: with `maxRetries = 2` and a source that always fails,
exactly 3 attempts occur and 2 delays are slept. -/
theorem retry_exhaustion_witness :
    retry_loop ⟨2, 1, 300, 2⟩
        (fun _ (_ : Unit) => ((Except.error () : Except Unit Unit), ())) () =
      (Except.error (), (), 3,
       (List.range 2).map (DownloadRetryConfig.calculate_delay ⟨2, 1, 300, 2⟩)) := by
  have h := retry_exhaustion ⟨2, 1, 300, 2⟩
    (fun _ (_ : Unit) => ((Except.error () : Except Unit Unit), ())) ()
    (fun _ _ => rfl)
  exact h.1

/-- C10: a parsed configuration whose `download_retry.max_retries` is 0
is silently replaced whole by the default retry configuration
(`max_retries = 5`, delays 1s/300s, multiplier 2.0), discarding any
custom delay values supplied alongside it; a configuration with
nonzero `max_retries` is kept as is; and the retry loop itself honours
`max_retries = 0` with exactly one attempt and no sleep. -/
theorem zero_max_retries_replaced_by_default :
    (∀ (i m : ℕ) (b : ℚ),
      normalize_download_retry ⟨0, i, m, b⟩ = DownloadRetryConfig.default) ∧
    DownloadRetryConfig.default = ⟨5, 1, 300, 2⟩ ∧
    (∀ c : DownloadRetryConfig, c.max_retries ≠ 0 → normalize_download_retry c = c) ∧
    (∀ (σ ε α : Type) (cfg : DownloadRetryConfig)
      (step : ℕ → σ → Except ε α × σ) (s₀ : σ), cfg.max_retries = 0 →
      retry_loop cfg step s₀ = ((step 0 s₀).1, (step 0 s₀).2, 1, [])) := by
  refine ⟨fun i m b => rfl, rfl, fun c hc => ?_, fun σ ε α cfg step s₀ h0 => ?_⟩
  · simp [normalize_download_retry, hc]
  · rw [retry_loop, h0]
    rfl

/-- C10 witness: normalization at a concrete config with custom delay
values, and a concrete zero-retry loop performing one attempt. -/
theorem zero_max_retries_replaced_by_default_witness :
    normalize_download_retry ⟨0, 7, 9, 3⟩ = DownloadRetryConfig.default ∧
    retry_loop ⟨0, 1, 300, 2⟩
        (fun _ (_ : Unit) => ((Except.error () : Except Unit Unit), ())) () =
      (Except.error (), (), 1, []) := by
  refine ⟨zero_max_retries_replaced_by_default.1 7 9 3, ?_⟩
  exact zero_max_retries_replaced_by_default.2.2.2 Unit Unit Unit ⟨0, 1, 300, 2⟩
    (fun _ _ => ((Except.error () : Except Unit Unit), ())) () rfl

/-- C1 (amended): a 404 probe response makes the attempt fail
immediately with the NotFound error — before issuing the download
request and without touching the file — but `download_file` does not
distinguish this error from transient ones: with every attempt probing
404 it performs `maxRetries + 1` attempts, sleeping the policy delay
between consecutive attempts, and only then returns the NotFound
error. -/
theorem http_404_retried (url download_dir : String) (cfg : DownloadRetryConfig)
    (envs : ℕ → HttpAttemptEnv) (file₀ : Option (List ℕ))
    (h404 : ∀ a, (envs a).probe.status = 404) :
    (∀ (a : ℕ) (f : Option (List ℕ)),
      download_file_attempt url download_dir (envs a) f =
        (Except.error DownloadError.notFound, ⟨none, f⟩)) ∧
    download_file url download_dir cfg envs file₀ =
      (Except.error DownloadError.notFound, file₀, cfg.max_retries + 1,
       (List.range cfg.max_retries).map cfg.calculate_delay) := by
  have hatt : ∀ (a : ℕ) (f : Option (List ℕ)),
      download_file_attempt url download_dir (envs a) f =
        (Except.error DownloadError.notFound, ⟨none, f⟩) := by
    intro a f
    simp [download_file_attempt, h404 a]
  refine ⟨hatt, ?_⟩
  have hsf : (fun (a : ℕ) (f : Option (List ℕ)) =>
      let r := download_file_attempt url download_dir (envs a) f
      (r.1, r.2.file)) =
      (fun (_ : ℕ) (f : Option (List ℕ)) =>
        ((Except.error DownloadError.notFound : Except DownloadError String), f)) := by
    funext a f
    show (let r := download_file_attempt url download_dir (envs a) f
          (r.1, r.2.file)) = _
    rw [hatt a f]
  show retry_loop cfg (fun a f =>
      let r := download_file_attempt url download_dir (envs a) f
      (r.1, r.2.file)) file₀ = _
  rw [hsf]
  have h := retry_go_all_fail cfg
    (fun (_ : ℕ) (f : Option (List ℕ)) =>
      ((Except.error DownloadError.notFound : Except DownloadError String), f))
    (fun _ _ => rfl) cfg.max_retries 0 file₀
  rw [retry_loop, h, attemptStateFrom_const _ (fun _ _ => rfl) 0 file₀ cfg.max_retries]
  simp [List.range_eq_range']

/-- C1 witness for the amended claim: a concrete always-404 server
with `maxRetries = 2`. -/
theorem http_404_retried_witness :
    download_file "u" "d" ⟨2, 1, 300, 2⟩
        (fun _ => ⟨⟨404, none, none⟩, ⟨200, []⟩⟩) none =
      (Except.error DownloadError.notFound, none, 3,
       (List.range 2).map (DownloadRetryConfig.calculate_delay ⟨2, 1, 300, 2⟩)) := by
  exact (http_404_retried "u" "d" ⟨2, 1, 300, 2⟩
    (fun _ => ⟨⟨404, none, none⟩, ⟨200, []⟩⟩) none (fun _ => rfl)).2

/-- C1 counterexample to the claim as stated: with `maxRetries = 2`
and every probe answering 404, `download_file` performs 3 attempts and
sleeps twice — not "exactly one attempt … no sleep and no retry". -/
theorem http_404_counterexample :
    (download_file "u" "d" ⟨2, 1, 300, 2⟩
        (fun _ => ⟨⟨404, none, none⟩, ⟨200, []⟩⟩) none).2.2.1 = 3 ∧
    (download_file "u" "d" ⟨2, 1, 300, 2⟩
        (fun _ => ⟨⟨404, none, none⟩, ⟨200, []⟩⟩) none).2.2.2.length = 2 := by
  constructor <;> rfl

/-- C4: an attempt whose probed total equals the local size (total
positive) succeeds immediately with the existing path, issuing no
download request and writing nothing; a 416 answer to the download
request likewise ends the attempt successfully with the file
untouched; consequently re-invoking `download_file` on a fully
downloaded file succeeds in one attempt with no sleep, returning the
same path and leaving the file unchanged. -/
theorem already_complete_short_circuit :
    (∀ (url download_dir : String) (env : HttpAttemptEnv) (f : Option (List ℕ)),
      env.probe.status ≠ 404 →
      file_size_of f = total_size_of env.probe →
      0 < total_size_of env.probe →
      download_file_attempt url download_dir env f =
        (Except.ok (joinPath download_dir (fileName url)), ⟨none, f⟩)) ∧
    (∀ (url download_dir : String) (env : HttpAttemptEnv) (f : Option (List ℕ)),
      env.probe.status ≠ 404 →
      ¬(file_size_of f = total_size_of env.probe ∧ 0 < total_size_of env.probe) →
      env.download.status = 416 →
      download_file_attempt url download_dir env f =
        (Except.ok (joinPath download_dir (fileName url)),
         ⟨some (if 0 < file_size_of f then some (file_size_of f) else none), f⟩)) ∧
    (∀ (url download_dir : String) (cfg : DownloadRetryConfig)
      (envs : ℕ → HttpAttemptEnv) (f : Option (List ℕ)),
      (envs 0).probe.status ≠ 404 →
      file_size_of f = total_size_of (envs 0).probe →
      0 < total_size_of (envs 0).probe →
      download_file url download_dir cfg envs f =
        (Except.ok (joinPath download_dir (fileName url)), f, 1, [])) := by
  have h1 : ∀ (url download_dir : String) (env : HttpAttemptEnv) (f : Option (List ℕ)),
      env.probe.status ≠ 404 →
      file_size_of f = total_size_of env.probe →
      0 < total_size_of env.probe →
      download_file_attempt url download_dir env f =
        (Except.ok (joinPath download_dir (fileName url)), ⟨none, f⟩) := by
    intro url download_dir env f hne hsize hpos
    simp [download_file_attempt, hne, hsize, hpos]
  refine ⟨h1, ?_, ?_⟩
  · intro url download_dir env f hne hnc h416
    simp [download_file_attempt, hne, hnc, h416]
  · intro url download_dir cfg envs f hne hsize hpos
    have hstep := h1 url download_dir (envs 0) f hne hsize hpos
    show retry_loop cfg (fun a f =>
        let r := download_file_attempt url download_dir (envs a) f
        (r.1, r.2.file)) f = _
    rcases cfg with ⟨M, i, m, b⟩
    cases M with
    | zero => simp [retry_loop, retry_go, hstep]
    | succ n => simp [retry_loop, retry_go, hstep]

/-- C4 witness: a complete 5-byte file against a probed total of 5
(one-attempt no-op, idempotent path), and a 416 answer on a resume
request. -/
theorem already_complete_short_circuit_witness :
    download_file_attempt "a/b" "d" ⟨⟨206, some 5, none⟩, ⟨200, []⟩⟩
        (some (List.replicate 5 7)) =
      (Except.ok "d/b", ⟨none, some (List.replicate 5 7)⟩) ∧
    download_file_attempt "a/b" "d" ⟨⟨200, none, some 10⟩, ⟨416, []⟩⟩
        (some (List.replicate 5 7)) =
      (Except.ok "d/b", ⟨some (some 5), some (List.replicate 5 7)⟩) ∧
    download_file "a/b" "d" ⟨5, 1, 300, 2⟩
        (fun _ => ⟨⟨206, some 5, none⟩, ⟨200, []⟩⟩) (some (List.replicate 5 7)) =
      (Except.ok "d/b", some (List.replicate 5 7), 1, []) := by
  refine ⟨?_, ?_, ?_⟩
  · exact (already_complete_short_circuit.1 "a/b" "d"
      ⟨⟨206, some 5, none⟩, ⟨200, []⟩⟩ (some (List.replicate 5 7))
      (by decide) (by decide) (by decide)).trans (by decide)
  · exact ((already_complete_short_circuit.2.1) "a/b" "d"
      ⟨⟨200, none, some 10⟩, ⟨416, []⟩⟩ (some (List.replicate 5 7))
      (by decide) (by decide) (by decide)).trans (by decide)
  · exact ((already_complete_short_circuit.2.2) "a/b" "d" ⟨5, 1, 300, 2⟩
      (fun _ => ⟨⟨206, some 5, none⟩, ⟨200, []⟩⟩) (some (List.replicate 5 7))
      (by decide) (by decide) (by decide)).trans (by decide)

/-- C5: resuming from a local partial file holding the first `k` bytes
of the remote content (`0 < k < total`), the attempt issues the
download request with `Range: bytes=k-`, appends the served suffix to
the existing bytes, and ends with the file equal to the full remote
content — byte-identical to what a fresh full download (second
conjunct) produces, with size equal to the total. -/
theorem resume_range_request (url download_dir : String)
    (env fresh_env : HttpAttemptEnv) (remote : List ℕ) (k : ℕ)
    (hk0 : 0 < k) (hklen : k < remote.length)
    (h404 : env.probe.status ≠ 404)
    (htot : total_size_of env.probe = remote.length)
    (hst : 200 ≤ env.download.status ∧ env.download.status < 300)
    (hgood : goodChunks env.download.chunks)
    (hserve : chunksJoin env.download.chunks = remote.drop k)
    (h404f : fresh_env.probe.status ≠ 404)
    (htotf : total_size_of fresh_env.probe = remote.length)
    (hstf : 200 ≤ fresh_env.download.status ∧ fresh_env.download.status < 300)
    (hgoodf : goodChunks fresh_env.download.chunks)
    (hservef : chunksJoin fresh_env.download.chunks = remote) :
    download_file_attempt url download_dir env (some (remote.take k)) =
      (Except.ok (joinPath download_dir (fileName url)),
       ⟨some (some k), some remote⟩) ∧
    download_file_attempt url download_dir fresh_env none =
      (Except.ok (joinPath download_dir (fileName url)),
       ⟨some none, some remote⟩) := by
  have hlen : 0 < remote.length := Nat.lt_of_le_of_lt (Nat.zero_le k) hklen
  constructor
  · have hfs : file_size_of (some (remote.take k)) = k := by
      simp [file_size_of, List.length_take]
      omega
    have hnc : ¬(file_size_of (some (remote.take k)) = total_size_of env.probe ∧
        0 < total_size_of env.probe) := by
      rw [hfs, htot]
      rintro ⟨h, _⟩
      omega
    have h416 : env.download.status ≠ 416 := by omega
    have hdar := download_async_read_to_file_good env.download.chunks hgood
      ((some (remote.take k)).getD [])
    rw [hserve] at hdar
    simp only [Option.getD] at hdar
    rw [List.take_append_drop] at hdar
    simp [download_file_attempt, h404, hnc, h416, hst.1, hst.2, hdar, hfs, hk0]
    intro h
    omega
  · have hnc : ¬(file_size_of (none : Option (List ℕ)) = total_size_of fresh_env.probe ∧
        0 < total_size_of fresh_env.probe) := by
      rw [htotf]
      rintro ⟨h, _⟩
      simp [file_size_of] at h
      omega
    have h416 : fresh_env.download.status ≠ 416 := by omega
    have hdar := download_async_read_to_file_good fresh_env.download.chunks hgoodf
      ((none : Option (List ℕ)).getD [])
    rw [hservef] at hdar
    simp only [Option.getD] at hdar
    simp only [List.nil_append] at hdar
    simp [download_file_attempt, h404f, hnc, h416, hstf.1, hstf.2, hdar, file_size_of]
    intro h
    omega

/-- C5 witness: remote `[1,2,3,4]`, local partial `[1,2]` (`k = 2`),
the server serving `[3,4]` on the ranged request and `[1,2,3,4]` on a
fresh one. -/
theorem resume_range_request_witness :
    download_file_attempt "u" "d" ⟨⟨206, some 4, none⟩, ⟨206, [Except.ok [3, 4]]⟩⟩
        (some [1, 2]) =
      (Except.ok "d/u", ⟨some (some 2), some [1, 2, 3, 4]⟩) ∧
    download_file_attempt "u" "d" ⟨⟨206, some 4, none⟩, ⟨200, [Except.ok [1, 2, 3, 4]]⟩⟩
        none =
      (Except.ok "d/u", ⟨some none, some [1, 2, 3, 4]⟩) := by
  have h := resume_range_request "u" "d"
    ⟨⟨206, some 4, none⟩, ⟨206, [Except.ok [3, 4]]⟩⟩
    ⟨⟨206, some 4, none⟩, ⟨200, [Except.ok [1, 2, 3, 4]]⟩⟩
    [1, 2, 3, 4] 2 (by decide) (by decide) (by decide) (by decide)
    (by decide) (by decide) (by decide) (by decide) (by decide)
    (by decide) (by decide) (by decide)
  exact ⟨h.1.trans (by decide), h.2.trans (by decide)⟩

/-- C9: a mid-stream read error aborts the attempt with a retryable
stream error, and the destination file keeps the starting bytes plus
every chunk written before the error — it is neither deleted nor
truncated on the error path, so the next attempt can resume from
it. -/
theorem stream_error_preserves_partial :
    (∀ (initial : List ℕ) (pre : List (List ℕ)) (rest : List (Except Unit (List ℕ))),
      (∀ b ∈ pre, b ≠ []) →
      download_async_read_to_file (pre.map Except.ok ++ Except.error () :: rest) initial =
        (Except.error (), initial ++ pre.flatten)) ∧
    (∀ (url download_dir : String) (env : HttpAttemptEnv) (f : Option (List ℕ))
      (pre : List (List ℕ)) (rest : List (Except Unit (List ℕ))),
      env.probe.status ≠ 404 →
      ¬(file_size_of f = total_size_of env.probe ∧ 0 < total_size_of env.probe) →
      200 ≤ env.download.status ∧ env.download.status < 300 →
      env.download.chunks = pre.map Except.ok ++ Except.error () :: rest →
      (∀ b ∈ pre, b ≠ []) →
      download_file_attempt url download_dir env f =
        (Except.error DownloadError.streamError,
         ⟨some (if 0 < file_size_of f then some (file_size_of f) else none),
          some (f.getD [] ++ pre.flatten)⟩)) := by
  refine ⟨fun initial pre rest hpre =>
    download_async_read_to_file_error pre hpre initial rest, ?_⟩
  intro url download_dir env f pre rest hne hnc hst hchunks hpre
  have h416 : env.download.status ≠ 416 := by omega
  have hdar := download_async_read_to_file_error pre hpre (f.getD []) rest
  rw [← hchunks] at hdar
  simp [download_file_attempt, hne, hnc, h416, hst.1, hst.2, hdar]

/-- C9 witness: a fresh download whose stream delivers `[1,2]` and
then fails: the attempt errors and the file holds `[1,2]`. -/
theorem stream_error_preserves_partial_witness :
    download_file_attempt "u" "d"
        ⟨⟨200, none, some 10⟩, ⟨200, [Except.ok [1, 2], Except.error (), Except.ok [9]]⟩⟩
        none =
      (Except.error DownloadError.streamError, ⟨some none, some [1, 2]⟩) := by
  have h := stream_error_preserves_partial.2 "u" "d"
    ⟨⟨200, none, some 10⟩, ⟨200, [Except.ok [1, 2], Except.error (), Except.ok [9]]⟩⟩
    none [[1, 2]] [Except.ok [9]]
    (by decide) (by decide) (by decide) (by decide) (by decide)
  exact h.trans (by decide)

/-- C6: when every part file is present, `concatenate_files` succeeds
and the output file — created with truncate-if-exists, so regardless
of any prior content at the output path — holds exactly the byte-exact
concatenation of the part contents in list (URL) order, touching no
other path; `cleanup_part_files` then deletes every part file (and,
being total, never fails the operation) while the assembled output
survives with its content intact. -/
theorem multipart_concat_and_cleanup (fs : FS) (part_paths : List String)
    (content : String → List ℕ) (output : String)
    (h : ∀ p ∈ part_paths, p ≠ output ∧ fsLookup fs p = some (content p)) :
    ∃ fs2, concatenate_files fs part_paths output = Except.ok fs2 ∧
      fsLookup fs2 output = some ((part_paths.map content).flatten) ∧
      (∀ q, q ≠ output → fsLookup fs2 q = fsLookup fs q) ∧
      fsLookup (cleanup_part_files fs2 part_paths) output =
        some ((part_paths.map content).flatten) ∧
      (∀ p ∈ part_paths, fsLookup (cleanup_part_files fs2 part_paths) p = none) := by
  have hin : ∀ p ∈ part_paths, p ≠ output ∧
      fsLookup (fsWrite fs output []) p = some (content p) := by
    intro p hp
    have hh := h p hp
    exact ⟨hh.1, (fsLookup_write_ne _ _ _ _ hh.1).trans hh.2⟩
  obtain ⟨fs2, h1, h2, h3⟩ := concatenate_files_go_ok output content part_paths
    (fsWrite fs output []) [] hin (fsLookup_write_self _ _ _)
  have hout2 : fsLookup fs2 output = some ((part_paths.map content).flatten) := by
    simpa using h2
  refine ⟨fs2, h1, hout2, ?_, ?_, ?_⟩
  · intro q hq
    rw [h3 q hq, fsLookup_write_ne _ _ _ _ hq]
  · have hnotin : output ∉ part_paths := fun hmem => (h output hmem).1 rfl
    rw [fsLookup_cleanup part_paths fs2 output]
    simp [hnotin, hout2]
  · intro p hp
    rw [fsLookup_cleanup part_paths fs2 p]
    simp [hp]

/-- C6 witness: three parts of 100, 200 and 150 bytes; the assembled
file is their 450-byte in-order concatenation and all three part files
are absent afterwards. -/
theorem multipart_concat_and_cleanup_witness :
    (∃ fs2, concatenate_files
        [("p1", List.replicate 100 1), ("p2", List.replicate 200 2),
         ("p3", List.replicate 150 3)]
        ["p1", "p2", "p3"] "out" = Except.ok fs2 ∧
      fsLookup fs2 "out" =
        some ((["p1", "p2", "p3"].map
          (fun p => if p = "p1" then List.replicate 100 1
                    else if p = "p2" then List.replicate 200 2
                    else List.replicate 150 3)).flatten) ∧
      (∀ q, q ≠ "out" → fsLookup fs2 q =
        fsLookup [("p1", List.replicate 100 1), ("p2", List.replicate 200 2),
         ("p3", List.replicate 150 3)] q) ∧
      fsLookup (cleanup_part_files fs2 ["p1", "p2", "p3"]) "out" =
        some ((["p1", "p2", "p3"].map
          (fun p => if p = "p1" then List.replicate 100 1
                    else if p = "p2" then List.replicate 200 2
                    else List.replicate 150 3)).flatten) ∧
      (∀ p ∈ ["p1", "p2", "p3"],
        fsLookup (cleanup_part_files fs2 ["p1", "p2", "p3"]) p = none)) ∧
    ((["p1", "p2", "p3"].map
        (fun p => if p = "p1" then List.replicate 100 1
                  else if p = "p2" then List.replicate 200 2
                  else List.replicate 150 3)).flatten).length = 450 := by
  constructor
  · exact multipart_concat_and_cleanup
      [("p1", List.replicate 100 1), ("p2", List.replicate 200 2),
       ("p3", List.replicate 150 3)]
      ["p1", "p2", "p3"]
      (fun p => if p = "p1" then List.replicate 100 1
                else if p = "p2" then List.replicate 200 2
                else List.replicate 150 3)
      "out" (by decide)
  · decide

/-- C7 (amended): an S3 attempt that reaches the `get_object` call
(URL parsed, `head_object` succeeded, not already complete) issues a
ranged get starting at the existing size `k` exactly when
`0 < k ∧ k < total`, and a plain unranged get otherwise — in
particular a plain get whenever `k ≥ total`, even with `k > 0`. -/
theorem s3_get_ranged_iff (url download_dir : String) (env : S3AttemptEnv)
    (f : Option (List ℕ)) (b k2 : String) (cl : Option ℕ)
    (hparse : parse_s3_url url = Except.ok (b, k2))
    (hhead : env.head = Except.ok cl)
    (hnc : ¬(file_size_of f = cl.getD 0 ∧ 0 < cl.getD 0)) :
    (download_s3_file_attempt url download_dir env f).2.get_request =
      some (if 0 < file_size_of f ∧ file_size_of f < cl.getD 0
            then some (file_size_of f) else none) ∧
    ((download_s3_file_attempt url download_dir env f).2.get_request =
        some (some (file_size_of f)) ↔
      0 < file_size_of f ∧ file_size_of f < cl.getD 0) := by
  have hmain : (download_s3_file_attempt url download_dir env f).2.get_request =
      some (if 0 < file_size_of f ∧ file_size_of f < cl.getD 0
            then some (file_size_of f) else none) := by
    rcases hget : env.get with e | chunks
    · simp [download_s3_file_attempt, hparse, hhead, hnc, hget]
    · rcases hr : (download_async_read_to_file chunks (f.getD [])).1 with e | u <;>
        simp [download_s3_file_attempt, hparse, hhead, hnc, hget, hr]
  refine ⟨hmain, ?_⟩
  rw [hmain]
  by_cases hc : 0 < file_size_of f ∧ file_size_of f < cl.getD 0
  · simp [hc]
  · simp [hc]

/-- C7 witness for the amended claim: a 2-byte partial file against a
10-byte object yields a ranged get from byte 2. -/
theorem s3_get_ranged_iff_witness :
    (download_s3_file_attempt "s3://b/k" "d"
        ⟨Except.ok (some 10), Except.ok [Except.ok (List.replicate 8 0)]⟩
        (some [1, 2])).2.get_request = some (some 2) := by
  have h := s3_get_ranged_iff "s3://b/k" "d"
    ⟨Except.ok (some 10), Except.ok [Except.ok (List.replicate 8 0)]⟩
    (some [1, 2]) "b" "k" (some 10) (by decide) rfl (by decide)
  exact h.1.trans (by decide)

/-- C7 counterexample to the claim as stated: with a 5-byte local file
and an object of unknown size (`head` reports no length, so
`total_size = 0`), the get is plain — no range — although `k = 5 > 0`. -/
theorem s3_get_ranged_counterexample :
    0 < file_size_of (some (List.replicate 5 0)) ∧
    (download_s3_file_attempt "s3://b/k" "d" ⟨Except.ok none, Except.ok []⟩
        (some (List.replicate 5 0))).2.get_request = some none := by
  constructor
  · decide
  · rfl

/-- C8 (amended): a malformed S3 URL makes every attempt fail with the
configuration error before any network activity — no `head_object`, no
`get_object`, file untouched — but `download_s3_file` retries it like
any other error: it performs `maxRetries + 1` attempts, sleeping the
policy delay between consecutive attempts, before returning the parse
error. -/
theorem s3_malformed_url_retried (url download_dir : String)
    (cfg : DownloadRetryConfig) (envs : ℕ → S3AttemptEnv)
    (file₀ : Option (List ℕ))
    (hbad : parse_s3_url url = Except.error DownloadError.invalidS3Url) :
    (∀ (env : S3AttemptEnv) (f : Option (List ℕ)),
      download_s3_file_attempt url download_dir env f =
        (Except.error DownloadError.invalidS3Url, ⟨false, none, f⟩)) ∧
    download_s3_file url download_dir cfg envs file₀ =
      (Except.error DownloadError.invalidS3Url, file₀, cfg.max_retries + 1,
       (List.range cfg.max_retries).map cfg.calculate_delay) := by
  have hatt : ∀ (env : S3AttemptEnv) (f : Option (List ℕ)),
      download_s3_file_attempt url download_dir env f =
        (Except.error DownloadError.invalidS3Url, ⟨false, none, f⟩) := by
    intro env f
    simp [download_s3_file_attempt, hbad]
  refine ⟨hatt, ?_⟩
  have hsf : (fun (a : ℕ) (f : Option (List ℕ)) =>
      let r := download_s3_file_attempt url download_dir (envs a) f
      (r.1, r.2.file)) =
      (fun (_ : ℕ) (f : Option (List ℕ)) =>
        ((Except.error DownloadError.invalidS3Url : Except DownloadError String), f)) := by
    funext a f
    show (let r := download_s3_file_attempt url download_dir (envs a) f
          (r.1, r.2.file)) = _
    rw [hatt (envs a) f]
  show retry_loop cfg (fun a f =>
      let r := download_s3_file_attempt url download_dir (envs a) f
      (r.1, r.2.file)) file₀ = _
  rw [hsf]
  have h := retry_go_all_fail cfg
    (fun (_ : ℕ) (f : Option (List ℕ)) =>
      ((Except.error DownloadError.invalidS3Url : Except DownloadError String), f))
    (fun _ _ => rfl) cfg.max_retries 0 file₀
  rw [retry_loop, h, attemptStateFrom_const _ (fun _ _ => rfl) 0 file₀ cfg.max_retries]
  simp [List.range_eq_range']

/-- C8 witness for the amended claim: the key-less URL
`s3://bucketonly` with `maxRetries = 2` is retried through 3 attempts
with 2 sleeps. -/
theorem s3_malformed_url_retried_witness :
    download_s3_file "s3://bucketonly" "d" ⟨2, 1, 300, 2⟩
        (fun _ => ⟨Except.ok (some 1), Except.ok []⟩) none =
      (Except.error DownloadError.invalidS3Url, none, 3,
       (List.range 2).map (DownloadRetryConfig.calculate_delay ⟨2, 1, 300, 2⟩)) := by
  exact (s3_malformed_url_retried "s3://bucketonly" "d" ⟨2, 1, 300, 2⟩
    (fun _ => ⟨Except.ok (some 1), Except.ok []⟩) none (by decide)).2

/-- C8 counterexample to the claim as stated: the malformed URL is not
a single fast failure — with `maxRetries = 2` the loop performs 3
attempts and sleeps twice before surfacing the error. -/
theorem s3_malformed_url_counterexample :
    (download_s3_file "s3://bucketonly" "d" ⟨2, 1, 300, 2⟩
        (fun _ => ⟨Except.ok (some 1), Except.ok []⟩) none).2.2.1 = 3 ∧
    (download_s3_file "s3://bucketonly" "d" ⟨2, 1, 300, 2⟩
        (fun _ => ⟨Except.ok (some 1), Except.ok []⟩) none).2.2.2.length = 2 := by
  constructor <;> rfl

end SnapshotDownloader
